import Mathlib

/-!
Verification development for the Token Manager core of the AntiProxy
reverse proxy (src/proxy/token_manager).  The Rust sources are embedded
shallowly: pure functions become Lean functions, the stateful pieces
(account registry, session bindings, round-robin cursors) become explicit
state passing over association lists, machine integers become Nat / Int,
and fallible operations return Option / Except.  External collaborators
(the OAuth client, the project-id resolver, the rate-limit tracker) are
passed in as function-valued parameters, matching the interfaces the core
consumes.
-/

namespace AntiProxy

/-- Association-list update: replace the value at the first occurrence of
the key, or append the pair when the key is absent.  Models a single-key
`insert` on a concurrent map (`DashMap::insert` / `entry().or_insert`). -/
def setAssoc {β : Type} (m : List (String × β)) (k : String) (v : β) :
    List (String × β) :=
  match m with
  | [] => [(k, v)]
  | (k', v') :: rest => if k' = k then (k, v) :: rest else (k', v') :: setAssoc rest k v

/-- Association-list removal of a key (`DashMap::remove`). -/
def removeAssoc {β : Type} (m : List (String × β)) (k : String) :
    List (String × β) :=
  m.filter (fun e => !(e.1 == k))

/-- Association-list in-place update of the value at a key, if present
(`DashMap::get_mut` followed by field writes). -/
def updateAssoc {β : Type} (m : List (String × β)) (k : String) (f : β → β) :
    List (String × β) :=
  m.map (fun e => if e.1 = k then (k, f e.2) else e)

/-- `types.rs` `ProxyToken`: one account's credentials and metadata.
`account_path` (a `PathBuf` in the source) is kept as a plain string. -/
structure ProxyToken where
  account_id : String
  access_token : String
  refresh_token : String
  expires_in : Int
  timestamp : Int
  email : String
  account_path : String
  project_id : Option String
  subscription_tier : Option String
deriving DecidableEq, Repr

/-- `types.rs` `SelectedToken`: the data `get_token` returns to the proxy. -/
structure SelectedToken where
  access_token : String
  project_id : String
  email : String
  account_id : String
deriving DecidableEq, Repr

/-- `ProxyToken::is_expired`: `now >= self.timestamp - 300` (5-minute
safety buffer).  `now` is passed explicitly instead of reading the clock. -/
def ProxyToken.is_expired (t : ProxyToken) (now : Int) : Bool :=
  now ≥ t.timestamp - 300

/-- `ProxyToken::tier_priority`: ULTRA → 0, PRO → 1, FREE → 2, anything
else (unknown tier string or absent) → 3. -/
def ProxyToken.tier_priority (t : ProxyToken) : Nat :=
  match t.subscription_tier with
  | some "ULTRA" => 0
  | some "PRO" => 1
  | some "FREE" => 2
  | _ => 3

/-- `sticky_config.rs` `SchedulingMode` (shape taken from its uses in
`scheduling.rs` and `core.rs`: variants `CacheFirst` and `Balance`). -/
inductive SchedulingMode where
  | CacheFirst
  | Balance
deriving DecidableEq, Repr

/-- `sticky_config.rs` `StickySessionConfig` (shape taken from its uses:
a mode and `max_wait_seconds : u64`; default CacheFirst / 120). -/
structure StickySessionConfig where
  mode : SchedulingMode
  max_wait_seconds : Nat
deriving DecidableEq, Repr

/-- The narrow rate-limit interface the scheduler consumes
(`rate_limit.rs` is an external collaborator; the core only queries it). -/
structure RateLimitTracker where
  is_rate_limited : String → String → Bool
  get_remaining_wait : String → String → Nat
  get_reset_seconds : String → String → Option Nat

/-- Session bindings: the flat map `"{scope}::{session_id}" → account_id`
held by `session.rs` `SessionManager`. -/
abbrev Bindings := List (String × String)

/-- Round-robin cursors: the map `scope_group → counter` held by
`scheduling.rs` `AccountScheduler.round_robin_index`. -/
abbrev Cursors := List (String × Nat)

/-- The account registry: `core.rs` `TokenManager.tokens`,
`account_id → ProxyToken`. -/
abbrev Registry := List (String × ProxyToken)

/-- `SessionManager::session_key`: `format!("{}::{}", quota_group, session_id)`. -/
def session_key (quota_group session_id : String) : String :=
  quota_group ++ "::" ++ session_id

/-- `SessionManager::get_binding`. -/
def get_binding (b : Bindings) (quota_group session_id : String) : Option String :=
  List.lookup (session_key quota_group session_id) b

/-- `SessionManager::set_binding` (`DashMap::insert`, replacing any prior value). -/
def set_binding (b : Bindings) (quota_group session_id account_id : String) : Bindings :=
  setAssoc b (session_key quota_group session_id) account_id

/-- `AccountScheduler::scope_group`: the quota group verbatim, except
image generation gets its own `::image_gen` suffixed bucket. -/
def scope_group (quota_group request_type : String) : String :=
  if request_type = "image_gen" then quota_group ++ "::image_gen" else quota_group

/-- `AccountScheduler::sort_by_tier`: `slice::sort_by` on `tier_priority`.
Rust's `sort_by` is a stable sort; a stable sort by a total preorder is
uniquely determined by its input, so `List.mergeSort` (also stable)
produces exactly the same list. -/
def sort_by_tier (tokens : List ProxyToken) : List ProxyToken :=
  tokens.mergeSort (fun a b => decide (a.tier_priority ≤ b.tier_priority))

/-- `AccountScheduler::get_next_index`: read the cursor for the scope
(creating it at 0 on first use), return it modulo `total`, and store the
incremented value.  Returns `(start_index, updated cursors)`. -/
def get_next_index (cursors : Cursors) (scope : String) (total : Nat) :
    Nat × Cursors :=
  let c := (List.lookup scope cursors).getD 0
  (c % total, setAssoc cursors scope (c + 1))

/-- The candidate filter inside `select_round_robin`'s loop: skip accounts
already attempted and accounts rate-limited in this scope. -/
def rr_accepts (tracker : RateLimitTracker) (scope : String)
    (attempted : List String) (candidate : ProxyToken) : Bool :=
  !(attempted.contains candidate.account_id) &&
  !(tracker.is_rate_limited scope candidate.account_id)

/-- The scan of `select_round_robin`: visit the given indices in order and
return the first token accepted by `pred`. -/
def scan_idxs (tokens : List ProxyToken) (pred : ProxyToken → Bool) :
    List Nat → Option ProxyToken
  | [] => none
  | i :: is =>
    match tokens[i]? with
    | some candidate => if pred candidate then some candidate else scan_idxs tokens pred is
    | none => scan_idxs tokens pred is

/-- `AccountScheduler::select_round_robin`: starting at the cursor value
modulo the pool size, scan all `total` offsets with wrap-around
(index `(start + offset) % total`) for the first token that is neither
attempted nor rate-limited.  An empty pool returns `none` before the
cursor is touched. -/
def select_round_robin (tracker : RateLimitTracker) (cursors : Cursors)
    (tokens : List ProxyToken) (scope : String) (attempted : List String) :
    Option ProxyToken × Cursors :=
  let total := tokens.length
  if total = 0 then (none, cursors)
  else
    let (start_idx, cursors') := get_next_index cursors scope total
    (scan_idxs tokens (rr_accepts tracker scope attempted)
      ((List.range total).map (fun offset => (start_idx + offset) % total)), cursors')

/-- `scheduling.rs` `SchedulingDecision`. -/
inductive SchedulingDecision where
  | UseAccount (token : ProxyToken)
  | WaitAndUse (token : ProxyToken) (wait_seconds : Nat)
  | AllUnavailable (min_wait_seconds : Nat)
deriving DecidableEq, Repr

/-- The fall-through tail of `select_with_session`: round-robin, and when
it yields nothing, `AllUnavailable` with the minimum known reset time over
the pool, defaulting to 60. -/
def rr_or_min_wait (tracker : RateLimitTracker) (cursors : Cursors)
    (tokens : List ProxyToken) (scope : String) (attempted : List String) :
    SchedulingDecision × Cursors :=
  match select_round_robin tracker cursors tokens scope attempted with
  | (some token, cursors') => (.UseAccount token, cursors')
  | (none, cursors') =>
    let min_wait := (tokens.filterMap
      (fun t => tracker.get_reset_seconds scope t.account_id)).min?.getD 60
    (.AllUnavailable min_wait, cursors')

/-- `AccountScheduler::select_with_session`: try the session's bound
account first (waiting for it under CacheFirst when the wait is short
enough), otherwise fall through to round-robin. -/
def select_with_session (tracker : RateLimitTracker) (cursors : Cursors)
    (tokens : List ProxyToken) (scope : String)
    (bound_account_id : Option String) (scheduling : StickySessionConfig)
    (attempted : List String) : SchedulingDecision × Cursors :=
  match bound_account_id with
  | some bound_id =>
    let remaining_wait := tracker.get_remaining_wait scope bound_id
    if remaining_wait > 0 then
      match scheduling.mode with
      | .CacheFirst =>
        if remaining_wait ≤ scheduling.max_wait_seconds then
          match tokens.find? (fun t => t.account_id == bound_id) with
          | some token => (.WaitAndUse token remaining_wait, cursors)
          | none => rr_or_min_wait tracker cursors tokens scope attempted
        else rr_or_min_wait tracker cursors tokens scope attempted
      | .Balance => rr_or_min_wait tracker cursors tokens scope attempted
    else if !(attempted.contains bound_id) then
      match tokens.find? (fun t => t.account_id == bound_id) with
      | some token => (.UseAccount token, cursors)
      | none => rr_or_min_wait tracker cursors tokens scope attempted
    else rr_or_min_wait tracker cursors tokens scope attempted
  | none => rr_or_min_wait tracker cursors tokens scope attempted

/-- A generic JSON value, the shape `serde_json::Value` is used at in this
core (numbers only ever read and written through `as_i64` / integer
literals, so they are modelled as `Int`). -/
inductive Json where
  | null
  | bool (b : Bool)
  | num (n : Int)
  | str (s : String)
  | arr (elems : List Json)
  | obj (fields : List (String × Json))

/-- `serde_json::Value::get` with a string key: `some` field value on an
object containing the key, `none` otherwise. -/
def Json.get (j : Json) (k : String) : Option Json :=
  match j with
  | .obj fields => List.lookup k fields
  | _ => none

/-- `serde_json::Value`'s `Index<&str>`: the field value, or `Null` when
the value is not an object or the key is absent (never panics). -/
def Json.idx (j : Json) (k : String) : Json :=
  (j.get k).getD Json.null

/-- `serde_json::Value::as_bool`. -/
def Json.as_bool : Json → Option Bool
  | .bool b => some b
  | _ => none

/-- `serde_json::Value::as_str`. -/
def Json.as_str : Json → Option String
  | .str s => some s
  | _ => none

/-- `serde_json::Value::as_i64`. -/
def Json.as_i64 : Json → Option Int
  | .num n => some n
  | _ => none

/-- `serde_json::Value::as_object`. -/
def Json.as_object : Json → Option (List (String × Json))
  | .obj fields => some fields
  | _ => none

/-- `serde_json::Map`'s `Index<&str>`.  Unlike `Value`'s, this `Index`
impl panics when the key is absent; `none` here models that panic. -/
def mapIndex (fields : List (String × Json)) (k : String) : Option Json :=
  List.lookup k fields

/-- `serde_json::Value`'s `IndexMut<&str>` followed by assignment
(`content[k] = v`): replace or insert the field on an object; `Null` is
treated as an empty object.  On any other value the real code panics;
that case is left unchanged here and is excluded by the hypotheses of
every theorem that uses this function. -/
def setObjField (j : Json) (k : String) (v : Json) : Json :=
  match j with
  | .obj fields => .obj (setAssoc fields k v)
  | .null => .obj [(k, v)]
  | other => other

/-- `refresh.rs` `TokenResponse` (also the shape of the external OAuth
client's successful reply). -/
structure TokenResponse where
  access_token : String
  expires_in : Int
deriving DecidableEq, Repr

/-- `RefreshCoordinator::save_refreshed_token`, reduced to its
read-modify-write on the parsed JSON value of the account file: overwrite
`token.access_token`, `token.expires_in` and `token.expiry_timestamp`
(the latter `now + expires_in`) and keep everything else. -/
def save_refreshed_token_json (now : Int) (response : TokenResponse)
    (content : Json) : Json :=
  let token_val := (content.get "token").getD Json.null
  let token_val := setObjField token_val "access_token" (.str response.access_token)
  let token_val := setObjField token_val "expires_in" (.num response.expires_in)
  let token_val := setObjField token_val "expiry_timestamp" (.num (now + response.expires_in))
  setObjField content "token" token_val

/-- Boolean test that `needle` occurs as a prefix of `haystack` (on
character lists). -/
def chars_begin_with : List Char → List Char → Bool
  | [], _ => true
  | _ :: _, [] => false
  | a :: as, b :: bs => a == b && chars_begin_with as bs

/-- Boolean test that `needle` occurs as a contiguous substring of the
character list. -/
def chars_contain (needle : List Char) : List Char → Bool
  | [] => needle.isEmpty
  | c :: rest => chars_begin_with needle (c :: rest) || chars_contain needle rest

/-- Rust `str::contains` with a literal pattern. -/
def string_contains (haystack needle : String) : Bool :=
  chars_contain needle.data haystack.data

/-- `RefreshCoordinator::is_permanent_error`: the error string contains
`invalid_grant`, quoted or bare. -/
def is_permanent_error (error : String) : Bool :=
  string_contains error "\"invalid_grant\"" || string_contains error "invalid_grant"

/-- `core.rs` `truncate_string`: unchanged when at most `max_len`
characters, otherwise the first `max_len` characters followed by the
single character `…`.  Lean's `String.length` counts characters, matching
`s.chars().count()`. -/
def truncate_string (s : String) (max_len : Nat) : String :=
  if s.length ≤ max_len then s
  else (String.mk (s.data.take max_len)).push '…'

/-- `TokenManager::disable_account`, reduced to its read-modify-write on
the parsed JSON value of the account file: set `disabled`, `disabled_at`
and `disabled_reason` (the reason truncated to 800 characters). -/
def disable_account_json (now : Int) (reason : String) (content : Json) : Json :=
  let content := setObjField content "disabled" (.bool true)
  let content := setObjField content "disabled_at" (.num now)
  setObjField content "disabled_reason" (.str (truncate_string reason 800))

/-- Split a character list on `.` (the segments between the dots). -/
def split_dots : List Char → List (List Char)
  | [] => [[]]
  | c :: rest =>
    let r := split_dots rest
    if c = '.' then [] :: r
    else
      match r with
      | [] => [[c]]
      | seg :: segs => (c :: seg) :: segs

/-- `Path::extension` on a file name: the portion after the last `.`,
absent when there is no `.` or when the only `.` is the leading one of a
hidden file. -/
def path_extension (name : String) : Option String :=
  match split_dots name.data with
  | [] => none
  | [_] => none
  | [] :: [_] => none
  | parts => (parts.getLast?).map String.mk

/-- The outcome of `TokenManager::load_single_account` on one file. -/
inductive SingleLoad where
  | tok (t : ProxyToken)
  | skipped_disabled
  | failed (msg : String)
  | panicked (msg : String)
deriving DecidableEq, Repr

/-- `TokenManager::load_single_account`.  The file is given as its parse
outcome (`none` = unreadable or malformed JSON).  Mirrors the extraction
order of the source; note that the four `token_obj[...]` reads go through
`serde_json::Map`'s panicking `Index`, so an absent key there yields
`panicked`, while a present key of the wrong type yields the `failed`
message of the corresponding `ok_or`. -/
def load_single_account (path : String) (content : Option Json) : SingleLoad :=
  match content with
  | none => .failed "Failed to read or parse file"
  | some account =>
    if ((account.get "disabled").bind Json.as_bool).getD false then .skipped_disabled
    else if ((account.get "proxy_disabled").bind Json.as_bool).getD false then .skipped_disabled
    else match (account.idx "id").as_str with
    | none => .failed "Missing id field"
    | some account_id =>
      match (account.idx "email").as_str with
      | none => .failed "Missing email field"
      | some email =>
        match (account.idx "token").as_object with
        | none => .failed "Missing token field"
        | some token_obj =>
          match mapIndex token_obj "access_token" with
          | none => .panicked "key not found: access_token"
          | some access_token_val =>
            match access_token_val.as_str with
            | none => .failed "Missing access_token"
            | some access_token =>
              match mapIndex token_obj "refresh_token" with
              | none => .panicked "key not found: refresh_token"
              | some refresh_token_val =>
                match refresh_token_val.as_str with
                | none => .failed "Missing refresh_token"
                | some refresh_token =>
                  match mapIndex token_obj "expires_in" with
                  | none => .panicked "key not found: expires_in"
                  | some expires_in_val =>
                    match expires_in_val.as_i64 with
                    | none => .failed "Missing expires_in"
                    | some expires_in =>
                      match mapIndex token_obj "expiry_timestamp" with
                      | none => .panicked "key not found: expiry_timestamp"
                      | some expiry_val =>
                        match expiry_val.as_i64 with
                        | none => .failed "Missing expiry_timestamp"
                        | some timestamp =>
                          .tok {
                            account_id := account_id
                            access_token := access_token
                            refresh_token := refresh_token
                            expires_in := expires_in
                            timestamp := timestamp
                            email := email
                            account_path := path
                            project_id := (List.lookup "project_id" token_obj).bind Json.as_str
                            subscription_tier :=
                              ((account.get "quota").bind (fun q => q.get "subscription_tier")).bind Json.as_str }

/-- The in-memory state owned by `TokenManager` (registry, session
bindings, round-robin cursors, sticky policy). -/
structure TMState where
  tokens : Registry
  sessions : Bindings
  cursors : Cursors
  sticky : StickySessionConfig
deriving DecidableEq, Repr

/-- One directory entry under `accounts/`: file name and parse outcome. -/
structure DirEntry where
  name : String
  content : Option Json

/-- The outcome of `TokenManager::load_accounts`. -/
inductive LoadResult where
  | ok (count : Nat) (st : TMState)
  | err (msg : String) (st : TMState)
  | panicked (msg : String) (st : TMState)
deriving DecidableEq, Repr

/-- The per-file loop of `load_accounts`: accepted tokens are inserted and
counted, disabled and failed files are skipped, a panic unwinds the loop
(leaving the partially populated registry behind). -/
def load_accounts_fold (entries : List DirEntry) (count : Nat) (tokens : Registry) :
    Except (String × Registry) (Nat × Registry) :=
  match entries with
  | [] => .ok (count, tokens)
  | e :: rest =>
    match load_single_account e.name e.content with
    | .tok t => load_accounts_fold rest (count + 1) (setAssoc tokens t.account_id t)
    | .skipped_disabled => load_accounts_fold rest count tokens
    | .failed _ => load_accounts_fold rest count tokens
    | .panicked msg => .error (msg, tokens)

/-- `TokenManager::load_accounts`.  The accounts directory is given as
`none` (does not exist) or the list of its entries.  On an existing
directory the registry and session bindings are cleared, then every
`*.json` entry is processed. -/
def load_accounts (st : TMState) (dir : Option (List DirEntry)) : LoadResult :=
  match dir with
  | none => .err "Accounts directory does not exist" st
  | some entries =>
    let json_entries := entries.filter (fun e => path_extension e.name == some "json")
    match load_accounts_fold json_entries 0 [] with
    | .ok (count, tokens) => .ok count { st with tokens := tokens, sessions := [] }
    | .error (msg, tokens) => .panicked msg { st with tokens := tokens, sessions := [] }

/-- The external collaborators `get_token` consumes, plus the clock.
Time within one call is modelled as a single instant `now`. -/
structure GetTokenEnv where
  now : Int
  oauth_refresh_access_token : String → Except String TokenResponse
  fetch_project_id : String → Except String String
  tracker : RateLimitTracker

/-- `TokenManager::refresh_token`, the body run under the per-account
mutex (within one sequential call the lock acquisition itself has no
observable effect).  If the local token copy is no longer expired the
registry entry is re-read instead of calling OAuth; otherwise the OAuth
client is invoked and the local copy updated.  The disk persistence of
the refreshed token is outside the modelled state and taken to succeed. -/
def refresh_token_model (env : GetTokenEnv) (tokens : Registry)
    (token : ProxyToken) : Except String ProxyToken :=
  if !(token.is_expired env.now) then
    match List.lookup token.account_id tokens with
    | some entry =>
      .ok { token with
        access_token := entry.access_token
        expires_in := entry.expires_in
        timestamp := entry.timestamp }
    | none => .ok token
  else
    match env.oauth_refresh_access_token token.refresh_token with
    | .error e => .error e
    | .ok response =>
      .ok { token with
        access_token := response.access_token
        expires_in := response.expires_in
        timestamp := env.now + response.expires_in }

/-- `TokenManager::fetch_and_save_project_id`: fetch via the external
resolver, write the project id into the registry entry, then persist
(`save_project_id` fails with `Account not found` when the account is no
longer in the registry; the file write itself is taken to succeed). -/
def fetch_and_save_project_id (env : GetTokenEnv) (tokens : Registry)
    (token : ProxyToken) : Except String (String × Registry) :=
  match env.fetch_project_id token.access_token with
  | .error e => .error ("Failed to fetch project_id: " ++ e)
  | .ok project_id =>
    let tokens' := updateAssoc tokens token.account_id
      (fun entry => { entry with project_id := some project_id })
    match List.lookup token.account_id tokens' with
    | none => .error "Account not found"
    | some _ => .ok (project_id, tokens')

/-- The outcome of one iteration of `get_token`'s candidate loop. -/
inductive AttemptOutcome where
  | done (sel : SelectedToken) (st : TMState)
  | fatal (msg : String) (st : TMState)
  | failed (st : TMState) (attempted : List String) (last_error : String)
deriving DecidableEq, Repr

/-- The manager state an attempt outcome carries. -/
def AttemptOutcome.state : AttemptOutcome → TMState
  | .done _ st => st
  | .fatal _ st => st
  | .failed st _ _ => st

/-- The refresh phase of one loop iteration: when the candidate token is
expired, refresh it and write the result back into the registry entry
(`if let Some(mut entry) = self.tokens.get_mut(...)`); otherwise pass it
through.  Returns the (possibly refreshed) local token and the updated
registry. -/
def candidate_refresh (env : GetTokenEnv) (st : TMState) (token : ProxyToken) :
    Except String (ProxyToken × Registry) :=
  if token.is_expired env.now then
    match refresh_token_model env st.tokens token with
    | .ok t =>
      .ok (t, updateAssoc st.tokens t.account_id
        (fun entry => { entry with
          access_token := t.access_token
          expires_in := t.expires_in
          timestamp := t.timestamp }))
    | .error e => .error e
  else .ok (token, st.tokens)

/-- The project-id phase of one loop iteration: use the token's project
id when present, otherwise fetch and save one (the outer loop wraps the
error a second time, as the source does). -/
def candidate_project (env : GetTokenEnv) (tokens : Registry)
    (token : ProxyToken) : Except String (String × Registry) :=
  match token.project_id with
  | some pid => .ok (pid, tokens)
  | none =>
    match fetch_and_save_project_id env tokens token with
    | .ok pr => .ok pr
    | .error e => .error ("Failed to fetch project_id: " ++ e)

/-- The tail of one loop iteration once a candidate token is in hand:
refresh when expired (on permanent refresh errors disable and evict the
account), ensure a project id, bind the session when not rotating, and
return the selected credentials. -/
def attempt_with_token (env : GetTokenEnv) (scope : String)
    (session_id : Option String) (rotate : Bool) (st : TMState)
    (attempted : List String) (token : ProxyToken) : AttemptOutcome :=
  match candidate_refresh env st token with
  | .error e =>
    let tokens' :=
      if is_permanent_error e then removeAssoc st.tokens token.account_id
      else st.tokens
    .failed { st with tokens := tokens' } (token.account_id :: attempted)
      ("Token refresh failed: " ++ e)
  | .ok (token, tokens₁) =>
    match candidate_project env tokens₁ token with
    | .error e => .failed { st with tokens := tokens₁ } (token.account_id :: attempted) e
    | .ok (project_id, tokens₂) =>
      let st := { st with tokens := tokens₂ }
      let st :=
        match session_id with
        | some sid =>
          if !rotate then
            { st with sessions := set_binding st.sessions scope sid token.account_id }
          else st
        | none => st
      .done { access_token := token.access_token, project_id := project_id,
              email := token.email, account_id := token.account_id } st

/-- The scheduling decision of one loop iteration: forced round-robin
(wrapped as `UseAccount` / `AllUnavailable 60`) when rotating, otherwise
`select_with_session`. -/
def rotate_decision (env : GetTokenEnv) (scope : String)
    (bound_account : Option String) (snapshot : List ProxyToken)
    (rotate : Bool) (st : TMState) (attempted : List String) :
    SchedulingDecision × Cursors :=
  if rotate then
    match select_round_robin env.tracker st.cursors snapshot scope attempted with
    | (some token, c') => (SchedulingDecision.UseAccount token, c')
    | (none, c') => (SchedulingDecision.AllUnavailable 60, c')
  else
    select_with_session env.tracker st.cursors snapshot scope bound_account
      st.sticky attempted

/-- One iteration of `get_token`'s candidate loop: obtain a scheduling
decision, interpret it (`AllUnavailable` fails the whole call,
`WaitAndUse` sleeps — no state effect here — and proceeds), then run
`attempt_with_token`. -/
def attempt_once (env : GetTokenEnv) (scope : String)
    (bound_account : Option String) (session_id : Option String)
    (snapshot : List ProxyToken) (rotate : Bool) (st : TMState)
    (attempted : List String) : AttemptOutcome :=
  let dc := rotate_decision env scope bound_account snapshot rotate st attempted
  let st := { st with cursors := dc.2 }
  match dc.1 with
  | .AllUnavailable min_wait_seconds =>
    .fatal ("All accounts are currently limited. Please wait "
      ++ toString min_wait_seconds ++ "s.") st
  | .UseAccount token => attempt_with_token env scope session_id rotate st attempted token
  | .WaitAndUse token _wait => attempt_with_token env scope session_id rotate st attempted token

/-- `get_token`'s candidate loop (`for attempt in 0..tokens_snapshot.len()`),
with the remaining iteration count as fuel. -/
def get_token_loop (env : GetTokenEnv) (scope : String)
    (bound_account : Option String) (force_rotate : Bool)
    (session_id : Option String) (snapshot : List ProxyToken) :
    Nat → Nat → TMState → List String → Option String →
    Except String SelectedToken × TMState
  | 0, _, st, _, last_error => (.error (last_error.getD "All accounts failed"), st)
  | fuel + 1, attempt, st, attempted, _last_error =>
    let rotate := force_rotate || decide (0 < attempt)
    match attempt_once env scope bound_account session_id snapshot rotate st attempted with
    | .done sel st' => (.ok sel, st')
    | .fatal msg st' => (.error msg, st')
    | .failed st' attempted' err =>
      get_token_loop env scope bound_account force_rotate session_id snapshot
        fuel (attempt + 1) st' attempted' (some err)

/-- `TokenManager::get_token`: snapshot the registry, tier-sort it, look
up the session's bound account, then try up to `|snapshot|` candidates. -/
def get_token (env : GetTokenEnv) (st : TMState)
    (quota_group request_type : String) (force_rotate : Bool)
    (session_id : Option String) : Except String SelectedToken × TMState :=
  let tokens_snapshot := st.tokens.map (fun e => e.2)
  if tokens_snapshot.isEmpty then (.error "Token pool is empty", st)
  else
    let tokens_snapshot := sort_by_tier tokens_snapshot
    let scope := scope_group quota_group request_type
    let bound_account := session_id.bind (fun sid => get_binding st.sessions scope sid)
    get_token_loop env scope bound_account force_rotate session_id tokens_snapshot
      tokens_snapshot.length 0 st [] none

/-- One concurrent refresher in the coalescing scenario: the lock-entry
time of the request and the request's local snapshot of the account's
token (taken before the lock was acquired). -/
structure RefreshRequest where
  lock_time : Int
  snapshot : ProxyToken
deriving DecidableEq, Repr

/-- The critical section of `TokenManager::refresh_token` for one
request, acting on the shared registry: re-check expiry on the request's
local snapshot copy, and either re-read the registry (no OAuth call) or
perform the OAuth exchange and write the result back.  Returns the new
registry and whether the OAuth client was invoked. -/
def refresh_critical_section (oauth : String → Except String TokenResponse)
    (req : RefreshRequest) (tokens : Registry) : Registry × Bool :=
  if !(req.snapshot.is_expired req.lock_time) then (tokens, false)
  else
    match oauth req.snapshot.refresh_token with
    | .error _ => (tokens, true)
    | .ok response =>
      (updateAssoc tokens req.snapshot.account_id
        (fun entry => { entry with
          access_token := response.access_token
          expires_in := response.expires_in
          timestamp := req.lock_time + response.expires_in }), true)

/-- A set of concurrent `refresh_token` calls, serialized by the
per-account mutex: the critical sections run one after another in lock
acquisition order.  Returns the final registry and the number of OAuth
exchanges performed. -/
def serialized_refreshes (oauth : String → Except String TokenResponse) :
    List RefreshRequest → Registry → Registry × Nat
  | [], tokens => (tokens, 0)
  | req :: rest, tokens =>
    let (tokens', called) := refresh_critical_section oauth req tokens
    let (tokens'', n) := serialized_refreshes oauth rest tokens'
    (tokens'', (if called then 1 else 0) + n)

/-! Concrete fixtures used by witnesses and counterexamples. -/

/-- The default sticky policy (`StickySessionConfig::default()`:
CacheFirst, 120 s). -/
def defaultSticky : StickySessionConfig :=
  { mode := .CacheFirst, max_wait_seconds := 120 }

/-- A freshly constructed manager state: empty registry, no bindings, no
cursors, default policy. -/
def tmState0 : TMState :=
  { tokens := [], sessions := [], cursors := [], sticky := defaultSticky }

/-- A tracker that reports every account healthy. -/
def trackerFree : RateLimitTracker :=
  { is_rate_limited := fun _ _ => false
    get_remaining_wait := fun _ _ => 0
    get_reset_seconds := fun _ _ => none }

/-- A small account token for tests: expires at epoch 10000. -/
def mkTok (id : String) (tier : Option String) : ProxyToken :=
  { account_id := id
    access_token := "tok-" ++ id
    refresh_token := "ref-" ++ id
    expires_in := 3600
    timestamp := 10000
    email := id ++ "@example.com"
    account_path := id ++ ".json"
    project_id := some ("proj-" ++ id)
    subscription_tier := tier }

/-- An OAuth client that always succeeds with a fixed fresh token. -/
def oauthAlways : String → Except String TokenResponse :=
  fun _ => .ok { access_token := "fresh", expires_in := 3600 }

/-- An environment in which nothing is limited and every external call
succeeds; the clock reads 500 (so `mkTok` tokens are not expired). -/
def envFree : GetTokenEnv :=
  { now := 500
    oauth_refresh_access_token := oauthAlways
    fetch_project_id := fun _ => .ok "proj-x"
    tracker := trackerFree }

/-- A token whose access token expired long ago (expiry epoch 1000). -/
def staleTok : ProxyToken :=
  { account_id := "acct-1"
    access_token := "old"
    refresh_token := "r"
    expires_in := 3600
    timestamp := 1000
    email := "a@example.com"
    account_path := "a.json"
    project_id := some "p"
    subscription_tier := none }

/-- `staleTok` after the OAuth refresh performed at lock time 2000 with
`oauthAlways`: fresh access token, expiring at 2000 + 3600. -/
def freshStaleTok : ProxyToken :=
  { staleTok with access_token := "fresh", expires_in := 3600, timestamp := 5600 }

/-- A well-formed account file with id `dup` (first copy). -/
def dupFileA : Json :=
  .obj [("id", .str "dup"), ("email", .str "a@example.com"),
        ("owner", .str "team-a"),
        ("token", .obj [("access_token", .str "ta"), ("refresh_token", .str "ra"),
                        ("expires_in", .num 3600), ("expiry_timestamp", .num 1000),
                        ("project_id", .str "pa"), ("scopes", .arr [.str "email"])])]

/-- A well-formed account file with the same id `dup` (second copy). -/
def dupFileB : Json :=
  .obj [("id", .str "dup"), ("email", .str "b@example.com"),
        ("token", .obj [("access_token", .str "tb"), ("refresh_token", .str "rb"),
                        ("expires_in", .num 3600), ("expiry_timestamp", .num 2000),
                        ("project_id", .str "pb")])]

/-- The token record `load_single_account` produces from `dupFileB`. -/
def dupTokenB : ProxyToken :=
  { account_id := "dup"
    access_token := "tb"
    refresh_token := "rb"
    expires_in := 3600
    timestamp := 2000
    email := "b@example.com"
    account_path := "b.json"
    project_id := some "pb"
    subscription_tier := none }

/-- An enabled account file whose `token` object is present but lacks the
required `access_token` key. -/
def missingAccessTokenFile : Json :=
  .obj [("id", .str "acct-1"), ("email", .str "a@example.com"),
        ("token", .obj [("refresh_token", .str "r"), ("expires_in", .num 3600),
                        ("expiry_timestamp", .num 1000)])]

/-! ### Helper lemmas -/

theorem lookup_setAssoc {β : Type} (m : List (String × β)) (k k' : String) (v : β) :
    List.lookup k' (setAssoc m k v) = if k' = k then some v else List.lookup k' m := by
  induction m with
  | nil =>
    simp only [setAssoc, List.lookup]
    by_cases h : k' = k
    · simp [h]
    · simp [beq_eq_false_iff_ne.mpr h, h]
  | cons e rest ih =>
    obtain ⟨ek, ev⟩ := e
    simp only [setAssoc]
    by_cases h1 : ek = k
    · subst h1
      simp only [if_pos rfl, List.lookup]
      by_cases h : k' = ek
      · simp [h]
      · simp [beq_eq_false_iff_ne.mpr h, h, List.lookup]
    · rw [if_neg h1]
      simp only [List.lookup]
      by_cases h2 : k' = ek
      · subst h2
        have hne : ¬ k' = k := fun hh => h1 (hh ▸ rfl)
        simp [if_neg hne]
      · simp [beq_eq_false_iff_ne.mpr h2, ih]

/-- `is_expired` is monotone in time: once a token copy reads as expired
it reads as expired at every later instant (its `timestamp` field is
fixed).  This is why the post-lock re-check in `refresh_token` can never
observe `!is_expired` on the caller's local snapshot. -/
theorem is_expired_mono (t : ProxyToken) (now now' : Int) (h : now ≤ now')
    (he : t.is_expired now = true) : t.is_expired now' = true := by
  simp only [ProxyToken.is_expired, decide_eq_true_eq] at he ⊢
  omega

/-! ### Claim theorems -/

/-- **C1** (code bug): two concurrent `getToken` calls that both found the
same account's token expired perform TWO OAuth exchanges, not one.  The
post-lock re-check reads the caller's local snapshot copy, whose
`timestamp` no other request ever mutates, so after the first refresher
updates the registry the second refresher still sees its stale snapshot as
expired and calls OAuth again.  The conjuncts below evaluate the embedded
critical section at the failing input: the snapshot is expired at both
lock times, the first refresh leaves a registry entry that is NOT expired
at the second lock time (so a registry-based re-check would have
coalesced), and yet the serialized pair of refreshes performs 2 OAuth
calls. -/
theorem refresh_not_coalesced :
    staleTok.is_expired 2000 = true ∧
    staleTok.is_expired 2001 = true ∧
    (refresh_critical_section oauthAlways ⟨2000, staleTok⟩ [("acct-1", staleTok)]).1
      = [("acct-1", freshStaleTok)] ∧
    freshStaleTok.is_expired 2001 = false ∧
    (serialized_refreshes oauthAlways
      [⟨2000, staleTok⟩, ⟨2001, staleTok⟩] [("acct-1", staleTok)]).2 = 2 := by
  decide

/-- **C6** (code bug): a file whose `token` object is present but lacks
the required `access_token` key is not skipped: the `token_obj[...]` read
goes through `serde_json::Map`'s panicking `Index` impl, so
`load_single_account` panics and the panic unwinds the whole
`load_accounts` call instead of debug-logging and continuing. -/
theorem load_accounts_missing_field_panics :
    load_single_account "a.json" (some missingAccessTokenFile)
      = .panicked "key not found: access_token" ∧
    load_accounts tmState0 (some [⟨"a.json", some missingAccessTokenFile⟩])
      = .panicked "key not found: access_token"
          { tmState0 with tokens := [], sessions := [] } :=
  ⟨rfl, rfl⟩

/-- **C9**: the composite binding key is not injective over
`(scope_key, session_id)` pairs: chat scope `claude` with session
`image_gen::s` and image-gen scope `claude::image_gen` with session `s`
are distinct pairs yielding the same key `claude::image_gen::s`, so a
binding written under one is read and overwritten under the other. -/
theorem session_key_not_injective :
    (scope_group "claude" "chat", "image_gen::s")
      ≠ (scope_group "claude" "image_gen", "s") ∧
    session_key (scope_group "claude" "chat") "image_gen::s"
      = session_key (scope_group "claude" "image_gen") "s" ∧
    session_key (scope_group "claude" "chat") "image_gen::s"
      = "claude::image_gen::s" ∧
    get_binding
      (set_binding [] (scope_group "claude" "chat") "image_gen::s" "acct-chat")
      (scope_group "claude" "image_gen") "s" = some "acct-chat" ∧
    set_binding
      (set_binding [] (scope_group "claude" "chat") "image_gen::s" "acct-chat")
      (scope_group "claude" "image_gen") "s" "acct-img"
      = [("claude::image_gen::s", "acct-img")] := by
  decide

/-- **C10**: two enabled, well-formed files with equal `id` fields: the
later-processed record overwrites the earlier one in the registry, but the
returned count counts both, so `load_accounts` returns 2 while `len()`
is 1 immediately afterwards. -/
theorem load_accounts_duplicate_id_count :
    load_accounts tmState0 (some [⟨"a.json", some dupFileA⟩, ⟨"b.json", some dupFileB⟩])
      = .ok 2 { tmState0 with tokens := [("dup", dupTokenB)], sessions := [] } ∧
    ([("dup", dupTokenB)] : Registry).length = 1 ∧ (1 : Nat) < 2 :=
  ⟨rfl, rfl, by decide⟩

/-- **C8**: `truncate_string s n` is `s` itself when `s` has at most `n`
characters; otherwise it is the first `n` characters of `s` followed by
the single character `…` (character count, not bytes); and the disable
path stores `truncate_string reason 800` as the disabled reason. -/
theorem truncate_string_spec (s : String) (n : Nat) :
    (s.length ≤ n → truncate_string s n = s) ∧
    (n < s.length →
      (truncate_string s n).data = s.data.take n ++ ['…'] ∧
      (truncate_string s n).length = n + 1) ∧
    (∀ (now : Int) (reason : String) (fields : List (String × Json)),
      (disable_account_json now reason (Json.obj fields)).get "disabled_reason"
        = some (.str (truncate_string reason 800))) := by
  refine ⟨fun h => ?_, fun h => ?_, fun now reason fields => ?_⟩
  · simp [truncate_string, h]
  · have hn : ¬ s.length ≤ n := by omega
    have hdata : (truncate_string s n).data = s.data.take n ++ ['…'] := by
      simp [truncate_string, hn, String.push]
    refine ⟨hdata, ?_⟩
    have : (truncate_string s n).length = (truncate_string s n).data.length := rfl
    rw [this, hdata, List.length_append, List.length_take]
    have hs : s.length = s.data.length := rfl
    simp
    omega
  · simp [disable_account_json, setObjField, Json.get, lookup_setAssoc]

/-- Witness for **C8** at a concrete multi-byte input: `héllo` has five
characters; truncated at 3 it becomes its first three characters plus
`…`. -/
theorem truncate_string_spec_witness :
    3 < ("héllo" : String).length ∧
    (truncate_string "héllo" 3).data = ("héllo" : String).data.take 3 ++ ['…'] :=
  ⟨by decide, ((truncate_string_spec "héllo" 3).2.1 (by decide)).1⟩

theorem scan_idxs_append (tokens : List ProxyToken) (pred : ProxyToken → Bool)
    (is js : List Nat) :
    scan_idxs tokens pred (is ++ js)
      = (scan_idxs tokens pred is).or (scan_idxs tokens pred js) := by
  induction is with
  | nil => simp [scan_idxs]
  | cons i rest ih =>
    simp only [List.cons_append, scan_idxs]
    cases h : tokens[i]? with
    | none => simpa using ih
    | some c =>
      by_cases hp : pred c
      · simp [hp]
      · simpa [hp] using ih

theorem scan_idxs_range' (tokens : List ProxyToken) (pred : ProxyToken → Bool) :
    ∀ (k s : Nat), scan_idxs tokens pred (List.range' s k)
      = ((tokens.drop s).take k).find? pred := by
  intro k
  induction k with
  | zero => intro s; simp [scan_idxs]
  | succ k ih =>
    intro s
    rw [List.range'_succ]
    simp only [scan_idxs]
    cases h : tokens[s]? with
    | none =>
      have hlen : tokens.length ≤ s := List.getElem?_eq_none_iff.mp h
      have h1 : tokens.drop s = [] := List.drop_eq_nil_of_le hlen
      have h2 : tokens.drop (s + 1) = [] :=
        List.drop_eq_nil_of_le (Nat.le_succ_of_le hlen)
      rw [ih (s + 1), h1, h2]
      simp
    | some c =>
      obtain ⟨hlt, hv⟩ := List.getElem?_eq_some_iff.mp h
      have hdrop : tokens.drop s = c :: tokens.drop (s + 1) := by
        rw [List.drop_eq_getElem_cons hlt, hv]
      rw [hdrop]
      by_cases hp : pred c
      · simp [List.find?, hp]
      · simp [List.find?, hp, ih (s + 1)]

theorem map_mod_range (total s : Nat) (hs : s < total) :
    (List.range total).map (fun o => (s + o) % total)
      = List.range' s (total - s) ++ List.range s := by
  have hts : (total - s) + s = total := Nat.sub_add_cancel (Nat.le_of_lt hs)
  rw [show List.range total = List.range ((total - s) + s) from by rw [hts]]
  rw [List.range_add, List.map_append, List.map_map]
  congr 1
  · have hcong : ∀ o ∈ List.range (total - s), (s + o) % total = s + o := by
      intro o ho
      have : o < total - s := List.mem_range.mp ho
      exact Nat.mod_eq_of_lt (by omega)
    rw [List.map_congr_left hcong, List.range'_eq_map_range]
  · have hcong : ∀ o ∈ List.range s,
        ((fun o => (s + o) % total) ∘ (fun x => (total - s) + x)) o = id o := by
      intro o ho
      have hos : o < s := List.mem_range.mp ho
      simp only [Function.comp_apply, id_eq]
      have h1 : s + ((total - s) + o) = total + o := by omega
      rw [h1, Nat.add_mod_left]
      exact Nat.mod_eq_of_lt (by omega)
    rw [List.map_congr_left hcong, List.map_id]

/-- The scan of `select_round_robin` visits exactly the rotation of the
pool that starts at `cursor % |tokens|`: its result is the first element
of `drop start ++ take start` accepted by the candidate filter. -/
theorem select_round_robin_eq_rotation (tracker : RateLimitTracker)
    (cursors : Cursors) (tokens : List ProxyToken) (scope : String)
    (attempted : List String) (hne : tokens ≠ []) :
    (select_round_robin tracker cursors tokens scope attempted).1
      = (tokens.drop (((List.lookup scope cursors).getD 0) % tokens.length)
          ++ tokens.take (((List.lookup scope cursors).getD 0) % tokens.length)).find?
          (rr_accepts tracker scope attempted) := by
  have htot : tokens.length ≠ 0 := fun h => hne (List.length_eq_zero.mp h)
  set c := (List.lookup scope cursors).getD 0 with hc
  set start := c % tokens.length with hstart
  have hslt : start < tokens.length := Nat.mod_lt _ (Nat.pos_of_ne_zero htot)
  simp only [select_round_robin, get_next_index, if_neg htot, ← hc, ← hstart]
  rw [map_mod_range tokens.length start hslt, scan_idxs_append,
      scan_idxs_range', List.range_eq_range', scan_idxs_range']
  have h1 : (tokens.drop start).take (tokens.length - start) = tokens.drop start := by
    have hl : (tokens.drop start).length = tokens.length - start := List.length_drop start tokens
    rw [← hl, List.take_length]
  have h2 : (tokens.drop 0).take start = tokens.take start := by simp
  rw [h1, h2, List.find?_append]

theorem rr_accepts_true_iff (tracker : RateLimitTracker) (scope : String)
    (attempted : List String) (t : ProxyToken) :
    (rr_accepts tracker scope attempted t = true ↔
      attempted.contains t.account_id = false ∧
        tracker.is_rate_limited scope t.account_id = false) := by
  unfold rr_accepts
  cases attempted.contains t.account_id <;>
    cases tracker.is_rate_limited scope t.account_id <;> simp

theorem rr_accepts_false_iff (tracker : RateLimitTracker) (scope : String)
    (attempted : List String) (t : ProxyToken) :
    (rr_accepts tracker scope attempted t = false ↔
      attempted.contains t.account_id = true ∨
        tracker.is_rate_limited scope t.account_id = true) := by
  unfold rr_accepts
  cases attempted.contains t.account_id <;>
    cases tracker.is_rate_limited scope t.account_id <;> simp

/-- **C3** (amended): `select_round_robin` returns the first token in
scan order — the scan starting at the scope's cursor value modulo the
pool size and wrapping — whose account is neither in `attempted` nor
rate-limited in the scope; it returns `none` iff every token in the pool
is attempted or rate-limited (in particular for the empty pool); and the
cursor is incremented once per call on a nonempty pool, while an
empty-pool call returns before touching the cursor. -/
theorem select_round_robin_spec (tracker : RateLimitTracker) (cursors : Cursors)
    (tokens : List ProxyToken) (scope : String) (attempted : List String) :
    (∀ t, (select_round_robin tracker cursors tokens scope attempted).1 = some t →
      t ∈ tokens ∧ attempted.contains t.account_id = false ∧
        tracker.is_rate_limited scope t.account_id = false) ∧
    ((select_round_robin tracker cursors tokens scope attempted).1 = none ↔
      ∀ t ∈ tokens, attempted.contains t.account_id = true ∨
        tracker.is_rate_limited scope t.account_id = true) ∧
    (tokens ≠ [] →
      (select_round_robin tracker cursors tokens scope attempted).1
        = (tokens.drop (((List.lookup scope cursors).getD 0) % tokens.length)
            ++ tokens.take (((List.lookup scope cursors).getD 0) % tokens.length)).find?
            (rr_accepts tracker scope attempted)) ∧
    (tokens ≠ [] →
      (select_round_robin tracker cursors tokens scope attempted).2
        = setAssoc cursors scope (((List.lookup scope cursors).getD 0) + 1)) ∧
    (tokens = [] →
      select_round_robin tracker cursors tokens scope attempted = (none, cursors)) := by
  by_cases hne : tokens = []
  · subst hne
    refine ⟨?_, ?_, fun h => absurd rfl h, fun h => absurd rfl h, fun _ => rfl⟩
    · intro t ht
      simp [select_round_robin] at ht
    · simp [select_round_robin]
  · have hrot := select_round_robin_eq_rotation tracker cursors tokens scope attempted hne
    have htot : tokens.length ≠ 0 := fun h => hne (List.length_eq_zero.mp h)
    set start := ((List.lookup scope cursors).getD 0) % tokens.length with hstart
    have hperm : (tokens.drop start ++ tokens.take start).Perm tokens := by
      have hp := @List.perm_append_comm _ (tokens.drop start) (tokens.take start)
      rw [List.take_append_drop] at hp
      exact hp
    refine ⟨?_, ?_, fun _ => hrot, fun _ => ?_, fun h => absurd h hne⟩
    · intro t ht
      rw [hrot] at ht
      have hmem' : t ∈ tokens := hperm.mem_iff.mp (List.mem_of_find?_eq_some ht)
      have hpred := (rr_accepts_true_iff tracker scope attempted t).mp (List.find?_some ht)
      exact ⟨hmem', hpred.1, hpred.2⟩
    · rw [hrot, List.find?_eq_none]
      constructor
      · intro h t htmem
        have h' := h t (hperm.mem_iff.mpr htmem)
        rw [Bool.not_eq_true] at h'
        exact (rr_accepts_false_iff tracker scope attempted t).mp h'
      · intro h t htmem
        rw [Bool.not_eq_true]
        exact (rr_accepts_false_iff tracker scope attempted t).mpr
          (h t (hperm.mem_iff.mp htmem))
    · simp [select_round_robin, get_next_index, htot]

/-- **C3** counterexample: the claim says the cursor is incremented once
per `select_round_robin` call, but an empty-pool call returns before
`get_next_index` runs: with the `claude` cursor at 5 it is still 5 (not
5 + 1) afterwards. -/
theorem select_round_robin_empty_pool_cursor :
    (select_round_robin trackerFree [("claude", 5)] [] "claude" []).2
      = [("claude", 5)] ∧
    List.lookup "claude"
      (select_round_robin trackerFree [("claude", 5)] [] "claude" []).2 = some 5 ∧
    (some 5 : Option Nat) ≠ some (5 + 1) :=
  ⟨rfl, rfl, by decide⟩

/-- Witness for **C3** (amended) on a one-account pool: the pool is
nonempty and the call stores cursor 0 + 1 for the scope. -/
theorem select_round_robin_spec_witness :
    ([mkTok "a1" none] : List ProxyToken) ≠ [] ∧
    (select_round_robin trackerFree [] [mkTok "a1" none] "claude" []).2
      = setAssoc [] "claude" (((List.lookup "claude" ([] : Cursors)).getD 0) + 1) :=
  ⟨by decide,
    (select_round_robin_spec trackerFree [] [mkTok "a1" none] "claude" []).2.2.2.1
      (by decide)⟩

/-- **C2**: `select_with_session` follows the spec's state machine.  With
`W = remainingWait(scope, B)`: a set bound account B with `W = 0`, not
attempted and present in the pool is used directly; with `W > 0`, mode
CacheFirst and `W ≤ max_wait_seconds` and B present, the decision is
`WaitAndUse(B, W)`; with `W > 0` and mode Balance, or `W >
max_wait_seconds`, or B absent from the pool, the call falls through to
round-robin; no bound account falls through as well; and when round-robin
yields no candidate the decision is `AllUnavailable(m)` where `m` is the
minimum known `resetSeconds` over the pool, defaulting to 60 when none is
known. -/
theorem select_with_session_spec (tracker : RateLimitTracker) (cursors : Cursors)
    (tokens : List ProxyToken) (scope : String) (B : String)
    (scheduling : StickySessionConfig) (attempted : List String) :
    (∀ t, tracker.get_remaining_wait scope B = 0 →
      attempted.contains B = false →
      tokens.find? (fun x => x.account_id == B) = some t →
      select_with_session tracker cursors tokens scope (some B) scheduling attempted
        = (.UseAccount t, cursors)) ∧
    (∀ t W, tracker.get_remaining_wait scope B = W → 0 < W →
      scheduling.mode = .CacheFirst → W ≤ scheduling.max_wait_seconds →
      tokens.find? (fun x => x.account_id == B) = some t →
      select_with_session tracker cursors tokens scope (some B) scheduling attempted
        = (.WaitAndUse t W, cursors)) ∧
    ((0 < tracker.get_remaining_wait scope B ∧
        (scheduling.mode = .Balance ∨
          scheduling.max_wait_seconds < tracker.get_remaining_wait scope B) ∨
      tokens.find? (fun x => x.account_id == B) = none) →
      select_with_session tracker cursors tokens scope (some B) scheduling attempted
        = rr_or_min_wait tracker cursors tokens scope attempted) ∧
    (select_with_session tracker cursors tokens scope none scheduling attempted
      = rr_or_min_wait tracker cursors tokens scope attempted) ∧
    (∀ m, (select_round_robin tracker cursors tokens scope attempted).1 = none →
      (rr_or_min_wait tracker cursors tokens scope attempted).1 = .AllUnavailable m →
      ((tokens.filterMap (fun t => tracker.get_reset_seconds scope t.account_id) = [] ∧
          m = 60) ∨
        (m ∈ tokens.filterMap (fun t => tracker.get_reset_seconds scope t.account_id) ∧
          ∀ r ∈ tokens.filterMap (fun t => tracker.get_reset_seconds scope t.account_id),
            m ≤ r))) := by
  refine ⟨?_, ?_, ?_, rfl, ?_⟩
  · intro t hW hcont hfind
    simp only [select_with_session, hW]
    rw [if_neg (by omega), hcont]
    simp [hfind]
  · intro t W hW hpos hmode hle hfind
    simp only [select_with_session, hW, hmode]
    rw [if_pos hpos]
    simp [hle, hfind]
  · intro h
    rcases h with ⟨hpos, hbal | hgt⟩ | hfnone
    · simp only [select_with_session, hbal]
      rw [if_pos hpos]
    · simp only [select_with_session]
      rw [if_pos hpos]
      cases hmode : scheduling.mode
      · rw [if_neg (by omega)]
      · rfl
    · by_cases hpos : 0 < tracker.get_remaining_wait scope B
      · cases hmode : scheduling.mode
        · by_cases hle :
            tracker.get_remaining_wait scope B ≤ scheduling.max_wait_seconds
          · simp only [select_with_session, hmode]
            rw [if_pos hpos, if_pos hle, hfnone]
          · simp only [select_with_session, hmode]
            rw [if_pos hpos, if_neg hle]
        · simp only [select_with_session, hmode]
          rw [if_pos hpos]
      · by_cases hcont : attempted.contains B
        · simp only [select_with_session]
          rw [if_neg hpos, hcont]
          simp
        · rw [Bool.not_eq_true] at hcont
          simp only [select_with_session]
          rw [if_neg hpos, hcont]
          simp [hfnone]
  · intro m hnone hall
    rcases hsrr : select_round_robin tracker cursors tokens scope attempted with ⟨o, c'⟩
    rw [hsrr] at hnone
    simp only at hnone
    subst hnone
    rw [rr_or_min_wait, hsrr] at hall
    simp only at hall
    rcases hmin : (tokens.filterMap
        (fun t => tracker.get_reset_seconds scope t.account_id)).min? with _ | v
    · left
      refine ⟨List.min?_eq_none_iff.mp hmin, ?_⟩
      rw [hmin] at hall
      simpa using hall.symm
    · right
      rw [hmin] at hall
      simp only [Option.getD_some] at hall
      have hchar := (List.min?_eq_some_iff (fun a => Nat.le_refl a)
        (fun a b => min_choice a b) (fun a b c => le_min_iff)).mp hmin
      have hvm : v = m := by injection hall
      subst hvm
      exact hchar

/-- Witness for **C2** on a one-account pool with a fresh bound account:
the decision is `UseAccount` of that account and the cursors are
untouched. -/
theorem select_with_session_spec_witness :
    select_with_session trackerFree [] [mkTok "a1" (some "PRO")] "claude" (some "a1")
        defaultSticky []
      = (.UseAccount (mkTok "a1" (some "PRO")), []) :=
  (select_with_session_spec trackerFree [] [mkTok "a1" (some "PRO")] "claude" "a1"
      defaultSticky []).1 (mkTok "a1" (some "PRO")) rfl rfl (by decide)

theorem tier_le_trans : ∀ (a b c : ProxyToken),
    decide (a.tier_priority ≤ b.tier_priority) = true →
    decide (b.tier_priority ≤ c.tier_priority) = true →
    decide (a.tier_priority ≤ c.tier_priority) = true := by
  intro a b c hab hbc
  simp only [decide_eq_true_eq] at hab hbc ⊢
  omega

theorem tier_le_total : ∀ (a b : ProxyToken),
    (decide (a.tier_priority ≤ b.tier_priority) ||
      decide (b.tier_priority ≤ a.tier_priority)) = true := by
  intro a b
  rcases Nat.le_total a.tier_priority b.tier_priority with h | h <;> simp [h]

/-- Stability of the tier sort: the sublist of tokens at any fixed
priority level is exactly the corresponding sublist of the input. -/
theorem sort_by_tier_filter_eq (l : List ProxyToken) (p : Nat) :
    (sort_by_tier l).filter (fun t => t.tier_priority == p)
      = l.filter (fun t => t.tier_priority == p) := by
  have hperm : (sort_by_tier l).Perm l := List.mergeSort_perm l _
  have hpw : List.Pairwise
      (fun a b => decide (a.tier_priority ≤ b.tier_priority) = true)
      (l.filter (fun t => t.tier_priority == p)) := by
    apply List.pairwise_of_forall_mem_list
    intro a ha b hb
    have hap : a.tier_priority = p := by
      have := (List.mem_filter.mp ha).2
      simpa using this
    have hbp : b.tier_priority = p := by
      have := (List.mem_filter.mp hb).2
      simpa using this
    simp [hap, hbp]
  have hsub : (l.filter (fun t => t.tier_priority == p)).Sublist (sort_by_tier l) :=
    List.sublist_mergeSort tier_le_trans tier_le_total hpw (List.filter_sublist l)
  have hsub2 : (l.filter (fun t => t.tier_priority == p)).Sublist
      ((sort_by_tier l).filter (fun t => t.tier_priority == p)) := by
    have hff := hsub.filter (fun t => t.tier_priority == p)
    rwa [List.filter_eq_self.mpr (fun a ha => (List.mem_filter.mp ha).2)] at hff
  have hpermf : ((sort_by_tier l).filter (fun t => t.tier_priority == p)).Perm
      (l.filter (fun t => t.tier_priority == p)) :=
    hperm.filter (fun t => t.tier_priority == p)
  exact (hsub2.eq_of_length hpermf.length_eq.symm).symm

/-- **C4**: `sort_by_tier` is a stable permutation of its input ordered by
nondecreasing `tier_priority`; tokens of equal priority keep their
relative input order; and `tier_priority` maps ULTRA to 0, PRO to 1, FREE
to 2, and anything else (unknown tier string or absent) to 3. -/
theorem sort_by_tier_spec (l : List ProxyToken) :
    (sort_by_tier l).Perm l ∧
    List.Pairwise (fun a b => a.tier_priority ≤ b.tier_priority) (sort_by_tier l) ∧
    (∀ p : Nat, (sort_by_tier l).filter (fun t => t.tier_priority == p)
      = l.filter (fun t => t.tier_priority == p)) ∧
    (∀ t : ProxyToken,
      (t.subscription_tier = some "ULTRA" → t.tier_priority = 0) ∧
      (t.subscription_tier = some "PRO" → t.tier_priority = 1) ∧
      (t.subscription_tier = some "FREE" → t.tier_priority = 2) ∧
      (t.subscription_tier = none → t.tier_priority = 3) ∧
      (∀ s, s ≠ "ULTRA" → s ≠ "PRO" → s ≠ "FREE" →
        t.subscription_tier = some s → t.tier_priority = 3)) := by
  refine ⟨List.mergeSort_perm l _, ?_, sort_by_tier_filter_eq l, ?_⟩
  · have hs := List.sorted_mergeSort tier_le_trans tier_le_total l
    exact hs.imp (fun h => by simpa using h)
  · intro t
    refine ⟨fun h => ?_, fun h => ?_, fun h => ?_, fun h => ?_, fun s h1 h2 h3 h => ?_⟩
    · simp [ProxyToken.tier_priority, h]
    · simp [ProxyToken.tier_priority, h]
    · simp [ProxyToken.tier_priority, h]
    · simp [ProxyToken.tier_priority, h]
    · rw [ProxyToken.tier_priority, h]
      split
      · rename_i heq; rw [Option.some_inj] at heq; exact absurd heq h1
      · rename_i heq; rw [Option.some_inj] at heq; exact absurd heq h2
      · rename_i heq; rw [Option.some_inj] at heq; exact absurd heq h3
      · rfl

/-- Witness for **C4**: a concrete ULTRA token has priority 0. -/
theorem sort_by_tier_spec_witness :
    (mkTok "u" (some "ULTRA")).subscription_tier = some "ULTRA" ∧
    (mkTok "u" (some "ULTRA")).tier_priority = 0 :=
  ⟨rfl, ((sort_by_tier_spec []).2.2.2 (mkTok "u" (some "ULTRA"))).1 rfl⟩

/-- **C7**: for a well-formed account file (top level an object whose
`token` field is an object), persisting a refresh rewrites exactly
`token.access_token`, `token.expires_in` and `token.expiry_timestamp`
(the latter set to `now + expires_in`); every other field — at the top
level or inside `token`, including fields unknown to the core — is
preserved unchanged, so re-loading the file sees them bit-identical. -/
theorem save_refreshed_token_spec (now : Int) (response : TokenResponse)
    (fields tfields : List (String × Json))
    (htok : List.lookup "token" fields = some (.obj tfields)) :
    (∀ k, k ≠ "token" →
      (save_refreshed_token_json now response (.obj fields)).get k
        = (Json.obj fields).get k) ∧
    ((save_refreshed_token_json now response (.obj fields)).idx "token").get
        "access_token" = some (.str response.access_token) ∧
    ((save_refreshed_token_json now response (.obj fields)).idx "token").get
        "expires_in" = some (.num response.expires_in) ∧
    ((save_refreshed_token_json now response (.obj fields)).idx "token").get
        "expiry_timestamp" = some (.num (now + response.expires_in)) ∧
    (∀ k, k ≠ "access_token" → k ≠ "expires_in" → k ≠ "expiry_timestamp" →
      ((save_refreshed_token_json now response (.obj fields)).idx "token").get k
        = (Json.obj tfields).get k) := by
  have hsave : save_refreshed_token_json now response (.obj fields)
      = .obj (setAssoc fields "token"
          (.obj (setAssoc (setAssoc (setAssoc tfields
            "access_token" (.str response.access_token))
            "expires_in" (.num response.expires_in))
            "expiry_timestamp" (.num (now + response.expires_in))))) := by
    simp [save_refreshed_token_json, Json.get, htok, setObjField]
  rw [hsave]
  have hidx : (Json.obj (setAssoc fields "token"
      (.obj (setAssoc (setAssoc (setAssoc tfields
        "access_token" (.str response.access_token))
        "expires_in" (.num response.expires_in))
        "expiry_timestamp" (.num (now + response.expires_in)))))).idx "token"
      = .obj (setAssoc (setAssoc (setAssoc tfields
          "access_token" (.str response.access_token))
          "expires_in" (.num response.expires_in))
          "expiry_timestamp" (.num (now + response.expires_in))) := by
    simp [Json.idx, Json.get, lookup_setAssoc]
  rw [hidx]
  refine ⟨fun k hk => ?_, ?_, ?_, ?_, fun k h1 h2 h3 => ?_⟩
  · simp [Json.get, lookup_setAssoc, hk]
  · simp [Json.get, lookup_setAssoc]
  · simp [Json.get, lookup_setAssoc]
  · simp [Json.get, lookup_setAssoc]
  · simp [Json.get, lookup_setAssoc, h1, h2, h3]

/-- Witness for **C7** on a concrete file with an unknown `token` field:
the unknown field survives and the access token is rewritten. -/
theorem save_refreshed_token_spec_witness :
    ((save_refreshed_token_json 100 ⟨"na", 60⟩
        (.obj [("id", .str "x"), ("token", .obj [("refresh_token", .str "r")])])).idx
        "token").get "refresh_token"
      = (Json.obj [("refresh_token", .str "r")]).get "refresh_token" ∧
    ((save_refreshed_token_json 100 ⟨"na", 60⟩
        (.obj [("id", .str "x"), ("token", .obj [("refresh_token", .str "r")])])).idx
        "token").get "access_token" = some (.str "na") := by
  have h := save_refreshed_token_spec 100 ⟨"na", 60⟩
    [("id", .str "x"), ("token", .obj [("refresh_token", .str "r")])]
    [("refresh_token", .str "r")] rfl
  exact ⟨h.2.2.2.2 "refresh_token" (by decide) (by decide) (by decide), h.2.1⟩

theorem attempt_with_token_failed_sessions (env : GetTokenEnv) (scope : String)
    (session_id : Option String) (rotate : Bool) (st : TMState)
    (attempted : List String) (token : ProxyToken) (st' : TMState)
    (att : List String) (e : String)
    (h : attempt_with_token env scope session_id rotate st attempted token
      = .failed st' att e) :
    st'.sessions = st.sessions := by
  unfold attempt_with_token at h
  cases hr : candidate_refresh env st token with
  | error e₁ =>
    rw [hr] at h
    injection h with h1
    rw [← h1]
  | ok p =>
    obtain ⟨token', tokens₁⟩ := p
    simp only [hr] at h
    cases hp : candidate_project env tokens₁ token' with
    | error e₂ =>
      simp only [hp] at h
      injection h with h1
      rw [← h1]
    | ok q =>
      obtain ⟨project_id, tokens₂⟩ := q
      simp only [hp] at h
      exact AttemptOutcome.noConfusion h

theorem attempt_with_token_no_fatal (env : GetTokenEnv) (scope : String)
    (session_id : Option String) (rotate : Bool) (st : TMState)
    (attempted : List String) (token : ProxyToken) (msg : String) (st' : TMState)
    (h : attempt_with_token env scope session_id rotate st attempted token
      = .fatal msg st') : False := by
  unfold attempt_with_token at h
  cases hr : candidate_refresh env st token with
  | error e₁ =>
    rw [hr] at h
    exact AttemptOutcome.noConfusion h
  | ok p =>
    obtain ⟨token', tokens₁⟩ := p
    simp only [hr] at h
    cases hp : candidate_project env tokens₁ token' with
    | error e₂ =>
      simp only [hp] at h
      exact AttemptOutcome.noConfusion h
    | ok q =>
      obtain ⟨project_id, tokens₂⟩ := q
      simp only [hp] at h
      exact AttemptOutcome.noConfusion h

theorem attempt_with_token_done_sessions (env : GetTokenEnv) (scope : String)
    (session_id : Option String) (rotate : Bool) (st : TMState)
    (attempted : List String) (token : ProxyToken) (sel : SelectedToken)
    (st₁ : TMState)
    (h : attempt_with_token env scope session_id rotate st attempted token
      = .done sel st₁) :
    (session_id = none → st₁.sessions = st.sessions) ∧
    (rotate = true → st₁.sessions = st.sessions) ∧
    (∀ sid, session_id = some sid → rotate = false →
      st₁.sessions = set_binding st.sessions scope sid sel.account_id) := by
  unfold attempt_with_token at h
  cases hr : candidate_refresh env st token with
  | error e₁ =>
    rw [hr] at h
    exact AttemptOutcome.noConfusion h
  | ok p =>
    obtain ⟨token', tokens₁⟩ := p
    simp only [hr] at h
    cases hp : candidate_project env tokens₁ token' with
    | error e₂ =>
      simp only [hp] at h
      exact AttemptOutcome.noConfusion h
    | ok q =>
      obtain ⟨project_id, tokens₂⟩ := q
      simp only [hp] at h
      injection h with h1 h2
      refine ⟨fun hsid => ?_, fun hrot => ?_, fun sid hsid hrot => ?_⟩
      · subst hsid
        rw [← h2]
      · subst hrot
        rw [← h2]
        cases session_id <;> rfl
      · subst hsid
        subst hrot
        rw [← h2, ← h1]
        rfl

theorem attempt_once_failed_sessions (env : GetTokenEnv) (scope : String)
    (bound_account session_id : Option String) (snapshot : List ProxyToken)
    (rotate : Bool) (st : TMState) (attempted : List String) (st' : TMState)
    (att : List String) (e : String)
    (h : attempt_once env scope bound_account session_id snapshot rotate st attempted
      = .failed st' att e) :
    st'.sessions = st.sessions := by
  unfold attempt_once at h
  rcases hdec : rotate_decision env scope bound_account snapshot rotate st attempted
    with ⟨decision, cursors'⟩
  rw [hdec] at h
  cases decision with
  | AllUnavailable w => exact AttemptOutcome.noConfusion h
  | UseAccount token =>
    exact attempt_with_token_failed_sessions env scope session_id rotate
      { st with cursors := cursors' } attempted token st' att e h
  | WaitAndUse token w =>
    exact attempt_with_token_failed_sessions env scope session_id rotate
      { st with cursors := cursors' } attempted token st' att e h

theorem attempt_once_fatal_sessions (env : GetTokenEnv) (scope : String)
    (bound_account session_id : Option String) (snapshot : List ProxyToken)
    (rotate : Bool) (st : TMState) (attempted : List String) (msg : String)
    (st' : TMState)
    (h : attempt_once env scope bound_account session_id snapshot rotate st attempted
      = .fatal msg st') :
    st'.sessions = st.sessions := by
  unfold attempt_once at h
  rcases hdec : rotate_decision env scope bound_account snapshot rotate st attempted
    with ⟨decision, cursors'⟩
  rw [hdec] at h
  cases decision with
  | AllUnavailable w =>
    injection h with h1 h2
    rw [← h2]
  | UseAccount token =>
    exact absurd h (fun hh => attempt_with_token_no_fatal env scope session_id rotate
      { st with cursors := cursors' } attempted token msg st' hh)
  | WaitAndUse token w =>
    exact absurd h (fun hh => attempt_with_token_no_fatal env scope session_id rotate
      { st with cursors := cursors' } attempted token msg st' hh)

theorem attempt_once_done_sessions (env : GetTokenEnv) (scope : String)
    (bound_account session_id : Option String) (snapshot : List ProxyToken)
    (rotate : Bool) (st : TMState) (attempted : List String) (sel : SelectedToken)
    (st₁ : TMState)
    (h : attempt_once env scope bound_account session_id snapshot rotate st attempted
      = .done sel st₁) :
    (session_id = none → st₁.sessions = st.sessions) ∧
    (rotate = true → st₁.sessions = st.sessions) ∧
    (∀ sid, session_id = some sid → rotate = false →
      st₁.sessions = set_binding st.sessions scope sid sel.account_id) := by
  unfold attempt_once at h
  rcases hdec : rotate_decision env scope bound_account snapshot rotate st attempted
    with ⟨decision, cursors'⟩
  rw [hdec] at h
  cases decision with
  | AllUnavailable w => exact AttemptOutcome.noConfusion h
  | UseAccount token =>
    exact attempt_with_token_done_sessions env scope session_id rotate
      { st with cursors := cursors' } attempted token sel st₁ h
  | WaitAndUse token w =>
    exact attempt_with_token_done_sessions env scope session_id rotate
      { st with cursors := cursors' } attempted token sel st₁ h

/-- From the second candidate attempt on — and on every attempt of a
`force_rotate` call — `rotate` is true, so the rest of the loop never
writes a session binding. -/
theorem get_token_loop_sessions_of_rotate (env : GetTokenEnv) (scope : String)
    (bound_account : Option String) (force_rotate : Bool)
    (session_id : Option String) (snapshot : List ProxyToken) :
    ∀ (fuel attempt : Nat), (force_rotate = true ∨ 0 < attempt) →
      ∀ (st : TMState) (attempted : List String) (le : Option String),
      (get_token_loop env scope bound_account force_rotate session_id snapshot
        fuel attempt st attempted le).2.sessions = st.sessions := by
  intro fuel
  induction fuel with
  | zero => intro attempt hrot st attempted le; rfl
  | succ fuel ih =>
    intro attempt hrot st attempted le
    have hb : (force_rotate || decide (0 < attempt)) = true := by
      rcases hrot with h | h
      · simp [h]
      · simp [h]
    simp only [get_token_loop, hb]
    cases hout : attempt_once env scope bound_account session_id snapshot true st
        attempted with
    | done sel st' =>
      show st'.sessions = st.sessions
      exact (attempt_once_done_sessions env scope bound_account session_id
        snapshot true st attempted sel st' hout).2.1 rfl
    | fatal msg st' =>
      show st'.sessions = st.sessions
      exact attempt_once_fatal_sessions env scope bound_account session_id snapshot
        true st attempted msg st' hout
    | failed st' att' e =>
      show (get_token_loop env scope bound_account force_rotate session_id snapshot
        fuel (attempt + 1) st' att' (some e)).2.sessions = st.sessions
      rw [ih (attempt + 1) (Or.inr (Nat.succ_pos attempt)) st' att' (some e)]
      exact attempt_once_failed_sessions env scope bound_account session_id
        snapshot true st attempted st' att' e hout

/-- With no session id, no iteration of the loop writes a binding. -/
theorem get_token_loop_sessions_of_none (env : GetTokenEnv) (scope : String)
    (bound_account : Option String) (force_rotate : Bool)
    (snapshot : List ProxyToken) :
    ∀ (fuel attempt : Nat) (st : TMState) (attempted : List String)
      (le : Option String),
      (get_token_loop env scope bound_account force_rotate none snapshot
        fuel attempt st attempted le).2.sessions = st.sessions := by
  intro fuel
  induction fuel with
  | zero => intro attempt st attempted le; rfl
  | succ fuel ih =>
    intro attempt st attempted le
    simp only [get_token_loop]
    cases hout : attempt_once env scope bound_account none snapshot
        (force_rotate || decide (0 < attempt)) st attempted with
    | done sel st' =>
      show st'.sessions = st.sessions
      exact (attempt_once_done_sessions env scope bound_account none
        snapshot _ st attempted sel st' hout).1 rfl
    | fatal msg st' =>
      show st'.sessions = st.sessions
      exact attempt_once_fatal_sessions env scope bound_account none snapshot
        _ st attempted msg st' hout
    | failed st' att' e =>
      show (get_token_loop env scope bound_account force_rotate none snapshot
        fuel (attempt + 1) st' att' (some e)).2.sessions = st.sessions
      rw [ih (attempt + 1) st' att' (some e)]
      exact attempt_once_failed_sessions env scope bound_account none
        snapshot _ st attempted st' att' e hout

/-- Unfolding `get_token` to its loop form. -/
theorem get_token_eq (env : GetTokenEnv) (st : TMState)
    (quota_group request_type : String) (force_rotate : Bool)
    (session_id : Option String) :
    get_token env st quota_group request_type force_rotate session_id
      = if (st.tokens.map (fun e => e.2)).isEmpty then (.error "Token pool is empty", st)
        else get_token_loop env (scope_group quota_group request_type)
          (session_id.bind (fun sid =>
            get_binding st.sessions (scope_group quota_group request_type) sid))
          force_rotate session_id (sort_by_tier (st.tokens.map (fun e => e.2)))
          (sort_by_tier (st.tokens.map (fun e => e.2))).length 0 st [] none := rfl

/-- **C5**: a session binding is written if and only if `get_token`
returns a selected token successfully with a session id given and
`rotate` false — i.e. no `force_rotate` and success on the first
candidate attempt.  Every failing call (empty pool, the
all-accounts-limited failure, an exhausted loop) leaves the binding map
unchanged; a `force_rotate` call never writes (hence never rewrites) a
binding; a call without a session id writes nothing; a successful call
either wrote exactly `(scope, sid) ↦ selected.account_id` without
`force_rotate` or left the map unchanged; and a non-rotating first
attempt that succeeds returns that attempt's state, with the binding
written exactly when a session id was given. -/
theorem get_token_session_frame (env : GetTokenEnv) (st : TMState)
    (quota_group request_type : String) (force_rotate : Bool)
    (session_id : Option String) :
    (∀ e, (get_token env st quota_group request_type force_rotate session_id).1
        = .error e →
      (get_token env st quota_group request_type force_rotate session_id).2.sessions
        = st.sessions) ∧
    (force_rotate = true →
      (get_token env st quota_group request_type force_rotate session_id).2.sessions
        = st.sessions) ∧
    (session_id = none →
      (get_token env st quota_group request_type force_rotate session_id).2.sessions
        = st.sessions) ∧
    (∀ sel, (get_token env st quota_group request_type force_rotate session_id).1
        = .ok sel →
      (get_token env st quota_group request_type force_rotate session_id).2.sessions
          = st.sessions ∨
        (force_rotate = false ∧ ∃ sid, session_id = some sid ∧
          (get_token env st quota_group request_type force_rotate session_id).2.sessions
            = set_binding st.sessions (scope_group quota_group request_type) sid
                sel.account_id)) ∧
    (∀ sel st₁, force_rotate = false →
      (st.tokens.map (fun e => e.2)).isEmpty = false →
      attempt_once env (scope_group quota_group request_type)
          (session_id.bind (fun sid =>
            get_binding st.sessions (scope_group quota_group request_type) sid))
          session_id (sort_by_tier (st.tokens.map (fun e => e.2))) false st []
        = .done sel st₁ →
      get_token env st quota_group request_type force_rotate session_id
          = (.ok sel, st₁) ∧
      (∀ sid, session_id = some sid →
        st₁.sessions = set_binding st.sessions
          (scope_group quota_group request_type) sid sel.account_id)) := by
  cases hemp : (st.tokens.map (fun e => e.2)).isEmpty with
  | true =>
    have hg : get_token env st quota_group request_type force_rotate session_id
        = (.error "Token pool is empty", st) := by
      rw [get_token_eq, hemp]
      rfl
    rw [hg]
    refine ⟨fun e _ => rfl, fun _ => rfl, fun _ => rfl, fun sel hok => ?_,
      fun sel st₁ _ hne _ => ?_⟩
    · exact Except.noConfusion hok
    · exact Bool.noConfusion hne
  | false =>
    set scope := scope_group quota_group request_type with hscope
    set bound := session_id.bind (fun sid => get_binding st.sessions scope sid)
      with hbound
    set snap := sort_by_tier (st.tokens.map (fun e => e.2)) with hsnap
    have hg : get_token env st quota_group request_type force_rotate session_id
        = get_token_loop env scope bound force_rotate session_id snap
            snap.length 0 st [] none := by
      rw [get_token_eq, hemp]
      rfl
    have hlen : ∃ n, snap.length = n + 1 := by
      have hlenz : snap.length ≠ 0 := by
        rw [hsnap]
        have hperm := List.mergeSort_perm (st.tokens.map (fun e => e.2))
          (fun a b => decide (a.tier_priority ≤ b.tier_priority))
        rw [sort_by_tier, hperm.length_eq]
        intro h0
        rw [List.length_eq_zero] at h0
        rw [h0] at hemp
        exact Bool.noConfusion hemp
      exact ⟨snap.length - 1, by omega⟩
    obtain ⟨n, hn⟩ := hlen
    cases hfr : force_rotate with
    | true =>
      rw [hfr] at hg
      have hsess : (get_token env st quota_group request_type true
          session_id).2.sessions = st.sessions := by
        rw [hg]
        exact get_token_loop_sessions_of_rotate env scope bound true session_id snap
          snap.length 0 (Or.inl rfl) st [] none
      refine ⟨fun e _ => hsess, fun _ => hsess, fun _ => hsess,
        fun sel hok => Or.inl hsess, fun sel st₁ hfr0 _ _ => ?_⟩
      exact Bool.noConfusion hfr0
    | false =>
      rw [hfr] at hg
      have hstep : get_token_loop env scope bound false session_id snap
          (n + 1) 0 st [] none
          = match attempt_once env scope bound session_id snap false st [] with
            | .done sel st' => (.ok sel, st')
            | .fatal msg st' => (.error msg, st')
            | .failed st' att' e =>
              get_token_loop env scope bound false session_id snap n 1 st'
                att' (some e) := by
        simp only [get_token_loop]
        rfl
      have hg' : get_token env st quota_group request_type false session_id
          = match attempt_once env scope bound session_id snap false st [] with
            | .done sel st' => (.ok sel, st')
            | .fatal msg st' => (.error msg, st')
            | .failed st' att' e =>
              get_token_loop env scope bound false session_id snap n 1 st'
                att' (some e) := by
        rw [hg, hn, hstep]
      cases hout : attempt_once env scope bound session_id snap false st [] with
      | done sel' st' =>
        rw [hout] at hg'
        have htriple := attempt_once_done_sessions env scope bound session_id snap
          false st [] sel' st' hout
        refine ⟨fun e herr => ?_, fun hfr0 => ?_, fun hsid => ?_,
          fun sel hok => ?_, fun sel st₁ _ _ hdone => ?_⟩
        · rw [hg'] at herr
          exact Except.noConfusion herr
        · exact Bool.noConfusion hfr0
        · rw [hg']
          exact htriple.1 hsid
        · rw [hg'] at hok ⊢
          cases hsid : session_id with
          | none => exact Or.inl (htriple.1 hsid)
          | some sid =>
            right
            injection hok with hse
            refine ⟨rfl, sid, rfl, ?_⟩
            rw [← hse]
            exact htriple.2.2 sid hsid rfl
        · injection hdone with h1 h2
          subst h1
          subst h2
          exact ⟨hg', fun sid hsid => htriple.2.2 sid hsid rfl⟩
      | fatal msg st' =>
        rw [hout] at hg'
        have hsess' := attempt_once_fatal_sessions env scope bound session_id snap
          false st [] msg st' hout
        refine ⟨fun e _ => ?_, fun hfr0 => ?_, fun _ => ?_, fun sel hok => ?_,
          fun sel st₁ _ _ hdone => ?_⟩
        · rw [hg']
          exact hsess'
        · exact Bool.noConfusion hfr0
        · rw [hg']
          exact hsess'
        · rw [hg'] at hok
          exact Except.noConfusion hok
        · exact AttemptOutcome.noConfusion hdone
      | failed st' att' e₀ =>
        rw [hout] at hg'
        have hsess' : (get_token env st quota_group request_type false
            session_id).2.sessions = st.sessions := by
          rw [hg']
          have hrest := get_token_loop_sessions_of_rotate env scope bound false
            session_id snap n 1 (Or.inr Nat.one_pos) st' att' (some e₀)
          rw [hrest]
          exact attempt_once_failed_sessions env scope bound session_id snap
            false st [] st' att' e₀ hout
        refine ⟨fun e _ => hsess', fun hfr0 => ?_, fun _ => hsess',
          fun sel hok => Or.inl hsess', fun sel st₁ _ _ hdone => ?_⟩
        · exact Bool.noConfusion hfr0
        · exact AttemptOutcome.noConfusion hdone

/-- Witness for **C5**: on the empty pool `get_token` fails and the
binding map is untouched. -/
theorem get_token_session_frame_witness :
    (get_token envFree tmState0 "claude" "chat" false (some "s1")).2.sessions
      = tmState0.sessions :=
  (get_token_session_frame envFree tmState0 "claude" "chat" false (some "s1")).1
    "Token pool is empty" rfl

end AntiProxy
